import Mathlib

/-
  Shallow embedding of the product-service repository (services, repositories,
  schemas and models under src/), together with theorems checking the
  specification's claims against it.

  Conventions of the embedding:
  * Python `int` is `Int` (unbounded, may go negative); quantities validated
    by the request schemas (`gt=0`) are `Nat` with positivity stated where a
    claim needs it.
  * A SQLAlchemy session + commit is explicit state passing: each operation
    maps a store (list of rows) to a new store.  Primary-key lookups are
    `List.find?` on the id.
  * JSONB attribute values are a tagged union `Value`; the Python
    `isinstance` checks are translated constructor tests.  Note that in
    Python `bool` is a subclass of `int`, so a boolean passes the
    `isinstance(v, (int, float))` check: the embedding keeps that.
  * Fire-and-forget webhook calls are returned as data (lists of
    notifications) instead of performing I/O.
-/

namespace ProductSvc

/-! ### Python string helpers (src/utils.py and the schema validators) -/

/-- Python `str.lower` (ASCII case folding suffices for the titles involved);
    written over the character list so that it evaluates by kernel reduction. -/
def pyLower (s : String) : String := ⟨s.data.map Char.toLower⟩

/-- Whitespace as stripped by Python `str.strip` (space, tab, newlines). -/
def isPySpace (c : Char) : Bool := c.isWhitespace

/-- Python `str.strip`: drop leading and trailing whitespace. -/
def pyStrip (s : String) : String :=
  ⟨((s.data.dropWhile isPySpace).reverse.dropWhile isPySpace).reverse⟩

/-- Python `str.capitalize`: first character upper-cased, the rest lower-cased. -/
def pyCapitalize (s : String) : String :=
  match s.data with
  | [] => ""
  | c :: cs => ⟨c.toUpper :: cs.map Char.toLower⟩

/-- Function `normalize_title` from src/utils.py: strip, reject blank, capitalize.
    The `ValueError` branch is the `Except.error` case. -/
def normalize_title (title : String) : Except String String :=
  let t := pyStrip title
  if t = "" then Except.error "Название не может быть пустым"
  else Except.ok (pyCapitalize t)

/-- The inline validator of `CategoryCreateSchema` / `CategoryUpdateSchema`
    (src/schemas/categories.py): same strip/reject/capitalize logic as
    `normalize_title`, with its own error message. -/
def categorySchemaNormalize (title : String) : Except String String :=
  let t := pyStrip title
  if t = "" then Except.error "Название категории не может быть пустым"
  else Except.ok (pyCapitalize t)

/-! ### Attribute types and JSON-compatible runtime values -/

/-- Enum `AttributeType` from src/db/enums.py. -/
inductive AttributeType
  | string
  | number
  | boolean
  | enum
  | array
deriving DecidableEq

/-- The `.value` string of each `AttributeType` member. -/
def attributeTypeName : AttributeType → String
  | AttributeType.string => "string"
  | AttributeType.number => "number"
  | AttributeType.boolean => "boolean"
  | AttributeType.enum => "enum"
  | AttributeType.array => "array"

/-- A JSON-compatible Python runtime value as stored in the JSONB attribute
    map.  JSON objects are not inspected by any attribute check and are
    represented by the opaque `objV` constructor. -/
inductive Value
  | strV (s : String)
  | intV (n : Int)
  | floatV (q : Rat)
  | boolV (b : Bool)
  | listV (vs : List Value)
  | noneV
  | objV

/-- Python `isinstance(v, str)`. -/
def isinstanceStr : Value → Bool
  | Value.strV _ => true
  | _ => false

/-- Python `isinstance(v, (int, float))`.  A `bool` is a subclass of `int`
    in Python, so booleans pass this check. -/
def isinstanceIntOrFloat : Value → Bool
  | Value.intV _ => true
  | Value.floatV _ => true
  | Value.boolV _ => true
  | _ => false

/-- Python `isinstance(v, bool)`. -/
def isinstanceBool : Value → Bool
  | Value.boolV _ => true
  | _ => false

/-- Python `isinstance(v, list)`. -/
def isinstanceList : Value → Bool
  | Value.listV _ => true
  | _ => false

/-- The `type_checks` table of `ProductService._validate_attribute_type`. -/
def type_check : AttributeType → Value → Bool
  | AttributeType.string, v => isinstanceStr v
  | AttributeType.number, v => isinstanceIntOrFloat v
  | AttributeType.boolean, v => isinstanceBool v
  | AttributeType.array, v => isinstanceList v
  | AttributeType.enum, v => isinstanceStr v

/-! ### Data model (src/db/models.py) -/

/-- Enum `ProductStatus` from src/db/enums.py. -/
inductive ProductStatus
  | active
  | archived
deriving DecidableEq

/-- Row of `attribute_definitions` (`AttributeModel`). -/
structure AttributeDef where
  id : Nat
  category_id : Nat
  title : String
  type : AttributeType
  required : Bool
deriving DecidableEq

/-- Row of `categories` (`CategoryModel`). -/
structure Category where
  id : Nat
  title : String
deriving DecidableEq

/-- Row of `products` (`ProductModel`).  `stock` and `price` are Python ints;
    the table declares `CheckConstraint ("price >= 0")` and no constraint on
    `stock`. -/
structure Product where
  id : Nat
  title : String
  price : Int
  category_id : Nat
  description : Option String
  images : List String
  stock : Int
  rating : Rat
  status : ProductStatus
  attributes : List (String × Value)

/-- The relational store visible to one session. -/
structure Store where
  categories : List Category
  attribute_definitions : List AttributeDef
  products : List Product

/-- Repository method ProductRepository.get_by_id: primary-key lookup. -/
def getProductById (ps : List Product) (i : Nat) : Option Product :=
  ps.find? (fun p => p.id == i)

/-- Repository method CategoryRepository.get_by_id. -/
def getCategoryById (cs : List Category) (i : Nat) : Option Category :=
  cs.find? (fun c => c.id == i)

/-- Repository method AttributeRepository.get_all_from_category. -/
def attributesOfCategory (s : Store) (cid : Nat) : List AttributeDef :=
  s.attribute_definitions.filter (fun a => a.category_id == cid)

/-- Repository method AttributeRepository.get_by_title: exact-title lookup across all
    categories (note: not restricted to one category). -/
def attribute_get_by_title (attrs : List AttributeDef) (t : String) : Option AttributeDef :=
  attrs.find? (fun a => a.title == t)

/-- Repository method CategoryRepository.get_by_title: exact-title lookup. -/
def category_get_by_title (cs : List Category) (t : String) : Option Category :=
  cs.find? (fun c => c.title == t)

/-! ### Attribute validator (ProductService._validate_product_attributes) -/

/-- One entry of the `errors` list raised inside `ValidationException`. -/
structure Violation where
  field : String
  message : String
deriving DecidableEq

/-- Message of a required-attribute violation. -/
def requiredMissingMsg (t : String) : String :=
  "Обязательный атрибут '" ++ t ++ "' не указан"

/-- Message of a type-mismatch violation. -/
def typeMismatchMsg (name : String) (ty : AttributeType) : String :=
  "Атрибут '" ++ name ++ "' должен быть типа " ++ attributeTypeName ty

/-- Method ProductService._validate_attribute_type. -/
def validate_attribute_type (name : String) (value : Value) (expected : AttributeType) :
    Option Violation :=
  if type_check expected value then Option.none
  else Option.some ⟨name, typeMismatchMsg name expected⟩

/-- The `definitions_map` dict comprehension keyed by `attr.title.lower()`;
    a later definition with the same lowered title overwrites an earlier one,
    hence the lookup scans the reversed list. -/
def definitions_map (defs : List AttributeDef) (key : String) : Option AttributeDef :=
  defs.reverse.find? (fun d => pyLower d.title == key)

/-- The `found = any(key.lower() == attr_def.title.lower() ...)` test. -/
def hasKeyMatching (attrs : List (String × Value)) (t : String) : Bool :=
  attrs.any (fun kv => pyLower kv.1 == pyLower t)

/-- The required-attributes loop: one violation per required definition with
    no case-insensitive key match, in definition order. -/
def requiredErrors (defs : List AttributeDef) (attrs : List (String × Value)) :
    List Violation :=
  defs.filterMap (fun d =>
    if d.required && !hasKeyMatching attrs d.title then
      Option.some ⟨d.title, requiredMissingMsg d.title⟩
    else Option.none)

/-- The type-validation loop over the attribute map, in insertion order;
    keys with no matching definition are skipped. -/
def typeErrors (defs : List AttributeDef) (attrs : List (String × Value)) :
    List Violation :=
  attrs.filterMap (fun kv =>
    match definitions_map defs (pyLower kv.1) with
    | Option.some d => validate_attribute_type kv.1 kv.2 d.type
    | Option.none => Option.none)

/-- Method ProductService._validate_product_attributes applied to the definitions
    of one category: the accumulated error list (required-attribute errors
    first, then type errors, matching the two loops).  The service raises
    `ValidationException` exactly when this list is non-empty. -/
def validate_product_attributes (defs : List AttributeDef)
    (attrs : List (String × Value)) : List Violation :=
  requiredErrors defs attrs ++ typeErrors defs attrs

/-! ### Reservation engine (ProductService.reserve / cancel_reserve) -/

/-- Schema ReserveItemSchema: the schema validates `product_id > 0` and
    `quantity > 0`. -/
structure ReserveItem where
  product_id : Nat
  quantity : Nat
deriving DecidableEq

/-- Schema ReserveResponseSchema. -/
structure ReserveResponse where
  success : Bool
  reserved_items : List ReserveItem
  errors : List String
deriving DecidableEq

/-- Error message for a missing product. -/
def notFoundMsg (i : Nat) : String :=
  "Товар с ID " ++ toString i ++ " не найден"

/-- Error message for insufficient stock. -/
def insufficientMsg (title : String) (requested : Nat) (available : Int) : String :=
  "Недостаточно товара '" ++ title ++ "' (запрошено: " ++ toString requested ++
    ", в наличии: " ++ toString available ++ ")"

/-- Whether one reservation item fails its check against the (unmutated)
    store: missing product, or stock below the requested quantity. -/
def itemFails (ps : List Product) (it : ReserveItem) : Bool :=
  match getProductById ps it.product_id with
  | Option.none => true
  | Option.some p => p.stock < (it.quantity : Int)

/-- The checking loop of `reserve`: accumulates the error list and the
    `products_to_reserve` pairs, in request order, without mutating stock. -/
def reserveCheck (ps : List Product) :
    List ReserveItem → List String × List (Nat × Nat)
  | [] => ([], [])
  | it :: rest =>
    match getProductById ps it.product_id with
    | Option.none =>
      let r := reserveCheck ps rest
      (notFoundMsg it.product_id :: r.1, r.2)
    | Option.some p =>
      if p.stock < (it.quantity : Int) then
        let r := reserveCheck ps rest
        (insufficientMsg p.title it.quantity p.stock :: r.1, r.2)
      else
        let r := reserveCheck ps rest
        (r.1, (it.product_id, it.quantity) :: r.2)

/-- In-session mutation `product.stock -= quantity` for the product with the
    given id. -/
def applyDec (ps : List Product) (i : Nat) (q : Nat) : List Product :=
  ps.map (fun p => if p.id == i then { p with stock := p.stock - (q : Int) } else p)

/-- In-session mutation `product.stock += quantity`. -/
def applyInc (ps : List Product) (i : Nat) (q : Nat) : List Product :=
  ps.map (fun p => if p.id == i then { p with stock := p.stock + (q : Int) } else p)

/-- Result of one `reserve` call: the committed store, the HTTP response and
    the product ids sent to `notify_out_of_stock` (in call order, with
    multiplicity). -/
structure ReserveOutcome where
  products : List Product
  response : ReserveResponse
  out_of_stock_sent : List Nat

/-- Method ProductService.reserve: check every item against the unmutated store;
    on any error return `success=false` with the full error list and commit
    nothing; otherwise decrement each reserved pair, commit, and notify once
    per reserved pair whose product's (post-commit, shared in-memory) stock
    is exactly zero. -/
def reserve (ps : List Product) (items : List ReserveItem) : ReserveOutcome :=
  let checked := reserveCheck ps items
  if checked.1.isEmpty then
    let ps2 := checked.2.foldl (fun d pq => applyDec d pq.1 pq.2) ps
    let reserved := checked.2.map (fun pq => ReserveItem.mk pq.1 pq.2)
    let sent := checked.2.filterMap (fun pq =>
      match getProductById ps2 pq.1 with
      | Option.some p => if p.stock == 0 then Option.some pq.1 else Option.none
      | Option.none => Option.none)
    ⟨ps2, ⟨true, reserved, []⟩, sent⟩
  else
    ⟨ps, ⟨false, [], checked.1⟩, []⟩

/-- Result of one `cancel_reserve` call: committed store, response, and the
    product ids sent to `notify_back_in_stock`. -/
structure CancelOutcome where
  products : List Product
  response : ReserveResponse
  back_in_stock_sent : List Nat

/-- The per-item loop of `cancel_reserve`, mutating the session state as it
    goes: a missing product records an error and is skipped; otherwise the
    pre-increment zero-stock flag is recorded and the stock incremented.
    Returns (final products, restored list, errors, was-out-of-stock ids). -/
def cancelLoop (ps : List Product) :
    List ReserveItem → List Product × List ReserveItem × List String × List Nat
  | [] => (ps, [], [], [])
  | it :: rest =>
    match getProductById ps it.product_id with
    | Option.none =>
      let r := cancelLoop ps rest
      (r.1, r.2.1, notFoundMsg it.product_id :: r.2.2.1, r.2.2.2)
    | Option.some p =>
      let ps2 := applyInc ps it.product_id it.quantity
      let r := cancelLoop ps2 rest
      (r.1, ReserveItem.mk p.id it.quantity :: r.2.1, r.2.2.1,
        if p.stock == 0 then p.id :: r.2.2.2 else r.2.2.2)

/-- Method ProductService.cancel_reserve: items are processed independently;
    `success` is `len(errors) == 0`; both the restored list and the error
    list are returned. -/
def cancel_reserve (ps : List Product) (items : List ReserveItem) : CancelOutcome :=
  let r := cancelLoop ps items
  ⟨r.1, ⟨r.2.2.1.isEmpty, r.2.1, r.2.2.1⟩, r.2.2.2⟩

/-! ### Product update path (ProductService.update) -/

/-- Schema ProductUpdateSchema with `exclude_unset` semantics: `Option.none` means
    the field was not supplied. -/
structure ProductUpdateData where
  title : Option String := Option.none
  price : Option Int := Option.none
  category_id : Option Nat := Option.none
  description : Option String := Option.none
  images : Option (List String) := Option.none
  stock : Option Int := Option.none
  status : Option ProductStatus := Option.none
  attributes : Option (List (String × Value)) := Option.none

/-- Repository method ProductRepository.update: `setattr` for every supplied field. -/
def applyProductUpdate (p : Product) (d : ProductUpdateData) : Product :=
  { p with
    title := d.title.getD p.title
    price := d.price.getD p.price
    category_id := d.category_id.getD p.category_id
    description := match d.description with
      | Option.some s => Option.some s
      | Option.none => p.description
    images := d.images.getD p.images
    stock := d.stock.getD p.stock
    status := d.status.getD p.status
    attributes := d.attributes.getD p.attributes }

/-- One webhook call fired by the update path after commit. -/
inductive ProductNotif
  | product_updated (product_id : Nat) (title : String) (price : Int)
      (image_url : Option String)
  | out_of_stock (product_id : Nat)
  | back_in_stock (product_id : Nat)
deriving DecidableEq

/-- Outcome of `ProductService.update`: either a typed failure (nothing
    committed) or the updated row plus the webhooks sent post-commit. -/
inductive UpdateResult
  | not_found_product
  | not_found_category (cid : Nat)
  | validation_failure (errors : List Violation)
  | ok (updated : Product) (sent : List ProductNotif)

/-- Python truthiness of the optional attributes map (`if data.attributes:`):
    both an absent map and a present-but-empty map are falsy. -/
def truthyAttrs : Option (List (String × Value)) → Bool
  | Option.none => false
  | Option.some m => !m.isEmpty

/-- Method ProductService.update: load-or-404, snapshot old values, existence
    check for a changed category, attribute validation (only when the
    supplied attributes map is truthy) against the effective category,
    persist, commit, then diff-based webhooks.  Failure results return the
    store unchanged (the session was never committed). -/
def product_update (s : Store) (product_id : Nat) (data : ProductUpdateData) :
    Store × UpdateResult :=
  match getProductById s.products product_id with
  | Option.none => (s, UpdateResult.not_found_product)
  | Option.some p =>
    let old_title := p.title
    let old_price := p.price
    let old_images := p.images
    let old_stock := p.stock
    let target_category_id := data.category_id.getD p.category_id
    let categoryMissing :=
      match data.category_id with
      | Option.some c => c != p.category_id && (getCategoryById s.categories c).isNone
      | Option.none => false
    if categoryMissing then (s, UpdateResult.not_found_category target_category_id)
    else
      let validationErrors :=
        if truthyAttrs data.attributes then
          validate_product_attributes (attributesOfCategory s target_category_id)
            (data.attributes.getD [])
        else []
      if validationErrors.isEmpty then
        let updated := applyProductUpdate p data
        let ps2 := s.products.map (fun q => if q.id == product_id then updated else q)
        let sent :=
          (if updated.title != old_title || updated.price != old_price ||
              updated.images != old_images then
            [ProductNotif.product_updated product_id updated.title updated.price
              updated.images.head?]
          else [])
          ++ (if updated.stock == 0 && decide (old_stock > 0) then
                [ProductNotif.out_of_stock product_id]
              else [])
          ++ (if decide (updated.stock > 0) && old_stock == 0 then
                [ProductNotif.back_in_stock product_id]
              else [])
        ({ s with products := ps2 }, UpdateResult.ok updated sent)
      else (s, UpdateResult.validation_failure validationErrors)

/-! ### Attribute and category creation services -/

/-- An `HTTPException` with its status code and detail message. -/
structure HttpError where
  status : Nat
  detail : String
deriving DecidableEq

/-- Schema AttributeCreateSchema after validation (title already normalized by
    `normalize_title`). -/
structure AttributeCreateData where
  category_id : Nat
  title : String
  type : AttributeType
  required : Bool
deriving DecidableEq

/-- Detail message for a duplicate attribute title. -/
def duplicateAttrMsg (t : String) : String :=
  "Атрибут '" ++ t ++ "' уже существует"

/-- Method AttributeService.create: the uniqueness pre-check calls
    `AttributeRepository.get_by_title`, which searches across ALL categories;
    a match yields HTTP 400.  The foreign-key `IntegrityError` on a missing
    category is translated to HTTP 404. -/
def attribute_create (s : Store) (newId : Nat) (data : AttributeCreateData) :
    Except HttpError (Store × AttributeDef) :=
  match attribute_get_by_title s.attribute_definitions data.title with
  | Option.some _ => Except.error ⟨400, duplicateAttrMsg data.title⟩
  | Option.none =>
    if (getCategoryById s.categories data.category_id).isNone then
      Except.error ⟨404, "Категория с ID " ++ toString data.category_id ++ " не найдена"⟩
    else
      let a := AttributeDef.mk newId data.category_id data.title data.type data.required
      Except.ok ({ s with attribute_definitions := s.attribute_definitions ++ [a] }, a)

/-- Detail message for a duplicate category title. -/
def duplicateCategoryMsg (t : String) : String :=
  "Категория '" ++ t ++ "' уже существует"

/-- The category creation path: schema validation first (`title` normalized,
    blank titles rejected with HTTP 422 by FastAPI), then
    `CategoryService.create`, which rejects an existing identical title with
    an `HTTPException` of status 400. -/
def category_create (s : Store) (newId : Nat) (raw_title : String) :
    Except HttpError (Store × Category) :=
  match categorySchemaNormalize raw_title with
  | Except.error e => Except.error ⟨422, e⟩
  | Except.ok t =>
    match category_get_by_title s.categories t with
    | Option.some _ => Except.error ⟨400, duplicateCategoryMsg t⟩
    | Option.none =>
      let c := Category.mk newId t
      Except.ok ({ s with categories := s.categories ++ [c] }, c)

/-! ### Derived notions used to state the claims -/

/-- The error message `reserve` records for one failing item. -/
def reserveErrorMsg (ps : List Product) (it : ReserveItem) : String :=
  match getProductById ps it.product_id with
  | Option.none => notFoundMsg it.product_id
  | Option.some p => insufficientMsg p.title it.quantity p.stock

/-- Total quantity requested for one product id across a request. -/
def sumQtyFor (items : List ReserveItem) (i : Nat) : Nat :=
  ((items.filter (fun it => it.product_id == i)).map (fun it => it.quantity)).sum

/-- Total quantity for one product id across `products_to_reserve` pairs. -/
def pairQtySum (pqs : List (Nat × Nat)) (i : Nat) : Nat :=
  ((pqs.filter (fun pq => pq.1 == i)).map Prod.snd).sum

/-- Whether the product with the given id exists and has stock exactly zero. -/
def stockIsZero (ps : List Product) (i : Nat) : Bool :=
  match getProductById ps i with
  | Option.some p => p.stock == 0
  | Option.none => false

/-- Whether the product with the given id exists. -/
def productExists (ps : List Product) (i : Nat) : Bool :=
  (getProductById ps i).isSome

/-- Whether one attribute-map entry matches a definition (case-insensitively,
    through the last-wins definitions map) whose type check its value fails. -/
def keyFails (defs : List AttributeDef) (kv : String × Value) : Bool :=
  match definitions_map defs (pyLower kv.1) with
  | Option.some d => !type_check d.type kv.2
  | Option.none => false

/-! ### Concrete fixtures for witnesses and counterexamples -/

/-- Test fixture: a product with the given id, title and stock; remaining
    fields neutral. -/
def mkTestProduct (i : Nat) (title : String) (stock : Int) : Product :=
  ⟨i, title, 100, 1, Option.none, [], stock, 0, ProductStatus.active, []⟩

/-! ### Lemmas about the reservation checking loop -/

theorem reserveCheck_fst (ps : List Product) (items : List ReserveItem) :
    (reserveCheck ps items).1
      = (items.filter (fun it => itemFails ps it)).map (reserveErrorMsg ps) := by
  induction items with
  | nil => rfl
  | cons it rest ih =>
    cases h : getProductById ps it.product_id with
    | none =>
      simp [reserveCheck, h, List.filter_cons, itemFails, reserveErrorMsg, ih]
    | some p =>
      by_cases hs : p.stock < (it.quantity : Int)
      · simp [reserveCheck, h, hs, List.filter_cons, itemFails, reserveErrorMsg, ih]
      · simp [reserveCheck, h, hs, List.filter_cons, itemFails, reserveErrorMsg, ih]

theorem reserveCheck_snd_of_all_pass (ps : List Product) (items : List ReserveItem)
    (h : ∀ it ∈ items, itemFails ps it = false) :
    (reserveCheck ps items).2
      = items.map (fun it => (it.product_id, it.quantity)) := by
  induction items with
  | nil => rfl
  | cons it rest ih =>
    have hit := h it (List.mem_cons_self it rest)
    have hrest : ∀ x ∈ rest, itemFails ps x = false :=
      fun x hx => h x (List.mem_cons_of_mem it hx)
    cases hp : getProductById ps it.product_id with
    | none => simp [itemFails, hp] at hit
    | some p =>
      have hs : ¬ p.stock < (it.quantity : Int) := by
        simp only [itemFails, hp] at hit
        simpa using hit
      simp [reserveCheck, hp, hs, ih hrest]

theorem pairQtySum_cons (pq : Nat × Nat) (rest : List (Nat × Nat)) (i : Nat) :
    pairQtySum (pq :: rest) i
      = (if pq.1 = i then pq.2 else 0) + pairQtySum rest i := by
  by_cases h : pq.1 = i <;> simp [pairQtySum, List.filter_cons, h]

theorem foldl_applyDec (pqs : List (Nat × Nat)) (ps : List Product) :
    pqs.foldl (fun d pq => applyDec d pq.1 pq.2) ps
      = ps.map (fun p => { p with stock := p.stock - (pairQtySum pqs p.id : Int) }) := by
  induction pqs generalizing ps with
  | nil =>
    simp only [List.foldl_nil, pairQtySum, List.filter_nil, List.map_nil,
      List.sum_nil, Nat.cast_zero, sub_zero]
    exact (List.map_id ps).symm
  | cons pq rest ih =>
    rw [List.foldl_cons, ih]
    simp only [applyDec, List.map_map]
    refine List.map_congr_left ?_
    intro p _
    by_cases hid : p.id = pq.1
    · have hb : (p.id == pq.1) = true := by simpa using hid
      have hsum : pairQtySum (pq :: rest) p.id = pq.2 + pairQtySum rest p.id := by
        rw [pairQtySum_cons, if_pos hid.symm]
      have hstock : p.stock - (pq.2 : Int) - (pairQtySum rest p.id : Int)
          = p.stock - (pairQtySum (pq :: rest) p.id : Int) := by
        rw [hsum]
        push_cast
        ring
      simp only [Function.comp, hb, if_true]
      exact congrArg (fun v => { p with stock := v }) hstock
    · have hb : (p.id == pq.1) = false := by simpa using hid
      have hsum : pairQtySum (pq :: rest) p.id = pairQtySum rest p.id := by
        rw [pairQtySum_cons, if_neg (fun hh => hid hh.symm)]
        simp
      have hstock : p.stock - (pairQtySum rest p.id : Int)
          = p.stock - (pairQtySum (pq :: rest) p.id : Int) := by
        rw [hsum]
      simp only [Function.comp, hb, Bool.false_eq_true, if_false]
      exact congrArg (fun v => { p with stock := v }) hstock

theorem pairQtySum_map_pairs (items : List ReserveItem) (i : Nat) :
    pairQtySum (items.map (fun it => (it.product_id, it.quantity))) i
      = sumQtyFor items i := by
  induction items with
  | nil => rfl
  | cons it rest ih =>
    by_cases h : it.product_id = i <;>
      simp [pairQtySum, sumQtyFor, List.filter_cons, h] <;>
      simpa [pairQtySum, sumQtyFor] using ih

theorem filterMap_if_eq_filter_map {α β : Type _} (c : α → Bool) (f : α → β)
    (l : List α) :
    l.filterMap (fun a => if c a then Option.some (f a) else Option.none)
      = (l.filter c).map f := by
  induction l with
  | nil => rfl
  | cons a l ih =>
    by_cases h : c a <;> simp [List.filterMap_cons, List.filter_cons, h, ih]

/-- C1: for every reservation request in which at least one item fails its
    check (missing product or stock below the requested quantity), `reserve`
    returns `success = false` with exactly one error per failing item (in
    request order, so checking never stops early), an empty reserved list,
    no out-of-stock webhook, and the store completely unchanged — including
    the products whose items passed their individual checks. -/
theorem reserve_all_or_nothing_on_failure (ps : List Product)
    (items : List ReserveItem) (h : ∃ it ∈ items, itemFails ps it = true) :
    (reserve ps items).products = ps ∧
    (reserve ps items).response.success = false ∧
    (reserve ps items).response.reserved_items = [] ∧
    (reserve ps items).response.errors
      = (items.filter (fun it => itemFails ps it)).map (reserveErrorMsg ps) ∧
    (reserve ps items).out_of_stock_sent = [] := by
  obtain ⟨it, hmem, hfail⟩ := h
  have hne : (reserveCheck ps items).1 ≠ [] := by
    rw [reserveCheck_fst]
    intro hcontra
    have hfil := List.map_eq_nil_iff.mp hcontra
    exact absurd (List.mem_filter.mpr ⟨hmem, hfail⟩) (by simp [hfil])
  have hempty : (reserveCheck ps items).1.isEmpty = false :=
    List.isEmpty_eq_false.mpr hne
  have hcond : ¬ ((reserveCheck ps items).1.isEmpty = true) := by
    simp [hempty]
  have hres : reserve ps items = ⟨ps, ⟨false, [], (reserveCheck ps items).1⟩, []⟩ := by
    simp only [reserve]
    rw [if_neg hcond]
  rw [hres]
  exact ⟨rfl, rfl, rfl, reserveCheck_fst ps items, rfl⟩

/-- Witness for C1 at the spec's own example: products A(stock 5) and
    B(stock 0), request [(A,2),(B,1)] — the response fails, exactly one
    error is recorded, and A's stock remains 5. -/
theorem reserve_all_or_nothing_on_failure_witness :
    (reserve [mkTestProduct 1 "A" 5, mkTestProduct 2 "B" 0]
        [⟨1, 2⟩, ⟨2, 1⟩]).products
      = [mkTestProduct 1 "A" 5, mkTestProduct 2 "B" 0] ∧
    (reserve [mkTestProduct 1 "A" 5, mkTestProduct 2 "B" 0]
        [⟨1, 2⟩, ⟨2, 1⟩]).response.success = false ∧
    (reserve [mkTestProduct 1 "A" 5, mkTestProduct 2 "B" 0]
        [⟨1, 2⟩, ⟨2, 1⟩]).response.errors.length = 1 := by
  have h := reserve_all_or_nothing_on_failure
    [mkTestProduct 1 "A" 5, mkTestProduct 2 "B" 0] [⟨1, 2⟩, ⟨2, 1⟩]
    ⟨⟨2, 1⟩, by simp, by rfl⟩
  refine ⟨h.1, h.2.1, ?_⟩
  rw [h.2.2.2.1]
  rfl

/-- C3: for every reservation request in which every item passes its check,
    `reserve` returns `success = true` with `reserved_items` equal to the
    request and no errors, and commits a store in which every product's
    stock is decreased by exactly the total quantity requested for it. -/
theorem reserve_success_commits_decrements (ps : List Product)
    (items : List ReserveItem) (h : ∀ it ∈ items, itemFails ps it = false) :
    (reserve ps items).response.success = true ∧
    (reserve ps items).response.reserved_items = items ∧
    (reserve ps items).response.errors = [] ∧
    (reserve ps items).products
      = ps.map (fun p => { p with stock := p.stock - (sumQtyFor items p.id : Int) }) := by
  have hfil : items.filter (fun it => itemFails ps it) = [] :=
    List.filter_eq_nil_iff.mpr (fun it hmem => by simp [h it hmem])
  have herr : (reserveCheck ps items).1 = [] := by
    rw [reserveCheck_fst, hfil]
    rfl
  have hempty : (reserveCheck ps items).1.isEmpty = true :=
    List.isEmpty_iff.mpr herr
  have hsnd := reserveCheck_snd_of_all_pass ps items h
  have hres : reserve ps items
      = ⟨(reserveCheck ps items).2.foldl (fun d pq => applyDec d pq.1 pq.2) ps,
         ⟨true, (reserveCheck ps items).2.map (fun pq => ReserveItem.mk pq.1 pq.2), []⟩,
         (reserveCheck ps items).2.filterMap (fun pq =>
           match getProductById
               ((reserveCheck ps items).2.foldl (fun d pq => applyDec d pq.1 pq.2) ps)
               pq.1 with
           | Option.some p => if p.stock == 0 then Option.some pq.1 else Option.none
           | Option.none => Option.none)⟩ := by
    simp only [reserve]
    rw [if_pos hempty]
  rw [hres]
  refine ⟨rfl, ?_, rfl, ?_⟩
  · rw [hsnd, List.map_map]
    have heta : ∀ it ∈ items,
        ((fun pq : Nat × Nat => ReserveItem.mk pq.1 pq.2) ∘
          (fun it : ReserveItem => (it.product_id, it.quantity))) it = it := by
      intro it _
      rfl
    rw [List.map_congr_left heta]
    simp
  · rw [hsnd, foldl_applyDec]
    refine List.map_congr_left ?_
    intro p _
    rw [pairQtySum_map_pairs]

/-- Witness for C3 at the spec's example: A(stock 5), request [(A,2)] —
    success, reserved [(A,2)], and A's stock becomes 3. -/
theorem reserve_success_commits_decrements_witness :
    (reserve [mkTestProduct 1 "A" 5] [⟨1, 2⟩]).response.success = true ∧
    (reserve [mkTestProduct 1 "A" 5] [⟨1, 2⟩]).response.reserved_items = [⟨1, 2⟩] ∧
    (reserve [mkTestProduct 1 "A" 5] [⟨1, 2⟩]).products.map Product.stock = [3] := by
  have h := reserve_success_commits_decrements [mkTestProduct 1 "A" 5] [⟨1, 2⟩]
    (by intro it hit; simp at hit; subst hit; rfl)
  refine ⟨h.1, h.2.1, ?_⟩
  rw [h.2.2.2]
  rfl

/-- C2 is violated by the code: a request listing the same product twice
    passes every per-item check against the original stock, yet the
    committed decrement is their sum.  With stock 5 and request
    [(A,3),(A,3)] the call commits `success = true` and stock -1, breaking
    the `stock >= 0` invariant (the products table has a check constraint
    only for `price >= 0`). -/
theorem reserve_duplicate_items_commit_negative_stock :
    (reserve [mkTestProduct 1 "A" 5] [⟨1, 3⟩, ⟨1, 3⟩]).response.success = true ∧
    (reserve [mkTestProduct 1 "A" 5] [⟨1, 3⟩, ⟨1, 3⟩]).products.map Product.stock
      = [-1] ∧
    (∀ it ∈ ([⟨1, 3⟩, ⟨1, 3⟩] : List ReserveItem), itemFails [mkTestProduct 1 "A" 5] it = false) := by
  refine ⟨rfl, rfl, ?_⟩
  intro it hit
  simp at hit
  subst hit
  rfl

/-- C6 is violated by the code on duplicate product ids: the post-commit
    loop iterates over reserved pairs, not distinct products, so a request
    [(A,2),(A,2)] against stock 4 commits stock 0 and sends the out-of-stock
    webhook for A twice, not exactly once. -/
theorem reserve_duplicate_items_notify_twice :
    (reserve [mkTestProduct 1 "A" 4] [⟨1, 2⟩, ⟨1, 2⟩]).response.success = true ∧
    (reserve [mkTestProduct 1 "A" 4] [⟨1, 2⟩, ⟨1, 2⟩]).products.map Product.stock
      = [0] ∧
    (reserve [mkTestProduct 1 "A" 4] [⟨1, 2⟩, ⟨1, 2⟩]).out_of_stock_sent = [1, 1] := by
  exact ⟨rfl, rfl, rfl⟩

/-- C6 (amended): for every reservation request that commits with
    `success = true`, one out-of-stock webhook is sent per request item whose
    product's resulting stock is exactly zero (hence exactly one per product
    when the request's product ids are distinct), and no webhook is sent for
    any product whose resulting stock is non-zero. -/
theorem reserve_out_of_stock_sent_per_item (ps : List Product)
    (items : List ReserveItem) (h : ∀ it ∈ items, itemFails ps it = false) :
    (reserve ps items).out_of_stock_sent
      = (items.filter (fun it =>
          stockIsZero (reserve ps items).products it.product_id)).map
            (fun it => it.product_id) ∧
    ∀ i, stockIsZero (reserve ps items).products i = false →
      i ∉ (reserve ps items).out_of_stock_sent := by
  have hfil : items.filter (fun it => itemFails ps it) = [] :=
    List.filter_eq_nil_iff.mpr (fun it hmem => by simp [h it hmem])
  have herr : (reserveCheck ps items).1 = [] := by
    rw [reserveCheck_fst, hfil]
    rfl
  have hempty : (reserveCheck ps items).1.isEmpty = true :=
    List.isEmpty_iff.mpr herr
  have hsnd := reserveCheck_snd_of_all_pass ps items h
  have hbody : ∀ (qs : List Product) (pq : Nat × Nat),
      (match getProductById qs pq.1 with
        | Option.some p => if p.stock == 0 then Option.some pq.1 else Option.none
        | Option.none => Option.none)
        = (if stockIsZero qs pq.1 then Option.some pq.1 else Option.none) := by
    intro qs pq
    cases hq : getProductById qs pq.1 with
    | none => simp [stockIsZero, hq]
    | some p => by_cases hz : p.stock == 0 <;> simp [stockIsZero, hq, hz]
  have hprod : (reserve ps items).products
      = (reserveCheck ps items).2.foldl (fun d pq => applyDec d pq.1 pq.2) ps := by
    simp only [reserve]
    rw [if_pos hempty]
  have hsent : (reserve ps items).out_of_stock_sent
      = (reserveCheck ps items).2.filterMap (fun pq =>
          match getProductById
              ((reserveCheck ps items).2.foldl (fun d pq => applyDec d pq.1 pq.2) ps)
              pq.1 with
          | Option.some p => if p.stock == 0 then Option.some pq.1 else Option.none
          | Option.none => Option.none) := by
    simp only [reserve]
    rw [if_pos hempty]
  have hmain :
      (reserve ps items).out_of_stock_sent
        = (items.filter (fun it =>
            stockIsZero (reserve ps items).products it.product_id)).map
              (fun it => it.product_id) := by
    rw [hsent, hsnd, List.filterMap_map, ← filterMap_if_eq_filter_map]
    refine List.filterMap_congr ?_
    intro it _
    simp only [Function.comp]
    rw [hbody _ (it.product_id, it.quantity)]
    rw [hprod, hsnd]
  refine ⟨hmain, ?_⟩
  intro i hzero hmem
  rw [hmain] at hmem
  rcases List.mem_map.mp hmem with ⟨it, hit, hid⟩
  rcases List.mem_filter.mp hit with ⟨-, hz⟩
  rw [hid] at hz
  rw [hzero] at hz
  cases hz

/-- Witness for C6 (amended) at the spec's example: A(stock 2), request
    [(A,2)] — stock becomes 0 and exactly one out-of-stock webhook is sent
    for A. -/
theorem reserve_out_of_stock_sent_per_item_witness :
    (reserve [mkTestProduct 1 "A" 2] [⟨1, 2⟩]).out_of_stock_sent = [1] := by
  have h := reserve_out_of_stock_sent_per_item [mkTestProduct 1 "A" 2] [⟨1, 2⟩]
    (by intro it hit; simp at hit; subst hit; rfl)
  rw [h.1]
  rfl

/-! ### Lemmas about the cancellation loop -/

theorem sumQtyFor_cons (it : ReserveItem) (rest : List ReserveItem) (i : Nat) :
    sumQtyFor (it :: rest) i
      = (if it.product_id = i then it.quantity else 0) + sumQtyFor rest i := by
  by_cases h : it.product_id = i <;> simp [sumQtyFor, List.filter_cons, h]

theorem productExists_applyInc (ps : List Product) (i q j : Nat) :
    productExists (applyInc ps i q) j = productExists ps j := by
  induction ps with
  | nil => rfl
  | cons p rest ih =>
    simp only [applyInc, List.map_cons]
    by_cases hi : (p.id == i) = true
    · rw [if_pos hi]
      simp only [productExists, getProductById, List.find?_cons]
      by_cases hj : (p.id == j) = true
      · simp [hj]
      · simp only [hj]
        simpa [productExists, applyInc, getProductById] using ih
    · rw [if_neg hi]
      simp only [productExists, getProductById, List.find?_cons]
      by_cases hj : (p.id == j) = true
      · simp [hj]
      · simp only [hj]
        simpa [productExists, applyInc, getProductById] using ih

theorem cancelLoop_products (items : List ReserveItem) (ps : List Product) :
    (cancelLoop ps items).1
      = ps.map (fun p => { p with stock := p.stock + (sumQtyFor items p.id : Int) }) := by
  induction items generalizing ps with
  | nil =>
    simp only [cancelLoop, sumQtyFor, List.filter_nil, List.map_nil, List.sum_nil,
      Nat.cast_zero, add_zero]
    exact (List.map_id ps).symm
  | cons it rest ih =>
    cases hp : getProductById ps it.product_id with
    | none =>
      simp only [cancelLoop, hp]
      rw [ih]
      refine List.map_congr_left ?_
      intro p hmem
      have hne : ¬ it.product_id = p.id := by
        intro hh
        have := List.find?_eq_none.mp hp p hmem
        simp [hh] at this
      have hsum : sumQtyFor rest p.id = sumQtyFor (it :: rest) p.id := by
        rw [sumQtyFor_cons, if_neg hne]
        simp
      have hstock : p.stock + (sumQtyFor rest p.id : Int)
          = p.stock + (sumQtyFor (it :: rest) p.id : Int) := by
        rw [hsum]
      exact congrArg (fun v => { p with stock := v }) hstock
    | some p0 =>
      simp only [cancelLoop, hp]
      rw [ih]
      simp only [applyInc, List.map_map]
      refine List.map_congr_left ?_
      intro p _
      by_cases hid : p.id = it.product_id
      · have hb : (p.id == it.product_id) = true := by simpa using hid
        have hsum : sumQtyFor (it :: rest) p.id
            = it.quantity + sumQtyFor rest p.id := by
          rw [sumQtyFor_cons, if_pos hid.symm]
        have hstock : p.stock + (it.quantity : Int) + (sumQtyFor rest p.id : Int)
            = p.stock + (sumQtyFor (it :: rest) p.id : Int) := by
          rw [hsum]
          push_cast
          ring
        simp only [Function.comp, hb, if_true]
        exact congrArg (fun v => { p with stock := v }) hstock
      · have hb : (p.id == it.product_id) = false := by simpa using hid
        have hsum : sumQtyFor rest p.id = sumQtyFor (it :: rest) p.id := by
          rw [sumQtyFor_cons, if_neg (fun hh => hid hh.symm)]
          simp
        have hstock : p.stock + (sumQtyFor rest p.id : Int)
            = p.stock + (sumQtyFor (it :: rest) p.id : Int) := by
          rw [hsum]
        simp only [Function.comp, hb, Bool.false_eq_true, if_false]
        exact congrArg (fun v => { p with stock := v }) hstock

theorem cancelLoop_restored (items : List ReserveItem) (ps : List Product) :
    (cancelLoop ps items).2.1
      = (items.filter (fun it => productExists ps it.product_id)).map
          (fun it => ReserveItem.mk it.product_id it.quantity) := by
  induction items generalizing ps with
  | nil => rfl
  | cons it rest ih =>
    cases hp : getProductById ps it.product_id with
    | none =>
      have hex : productExists ps it.product_id = false := by
        simp [productExists, hp]
      simp only [cancelLoop, hp, List.filter_cons, hex, Bool.false_eq_true, if_false]
      exact ih ps
    | some p0 =>
      have hex : productExists ps it.product_id = true := by
        simp [productExists, hp]
      have hid : p0.id = it.product_id := by
        have := List.find?_some hp
        simpa using this
      have hfiltereq :
          rest.filter (fun x =>
            productExists (applyInc ps it.product_id it.quantity) x.product_id)
            = rest.filter (fun x => productExists ps x.product_id) :=
        List.filter_congr (fun x _ => by rw [productExists_applyInc])
      simp only [cancelLoop, hp, List.filter_cons, hex, if_true]
      rw [ih, hfiltereq, List.map_cons, hid]

theorem cancelLoop_errors (items : List ReserveItem) (ps : List Product) :
    (cancelLoop ps items).2.2.1
      = (items.filter (fun it => !productExists ps it.product_id)).map
          (fun it => notFoundMsg it.product_id) := by
  induction items generalizing ps with
  | nil => rfl
  | cons it rest ih =>
    cases hp : getProductById ps it.product_id with
    | none =>
      have hex : (!productExists ps it.product_id) = true := by
        simp [productExists, hp]
      simp only [cancelLoop, hp, List.filter_cons, hex, if_true]
      rw [ih, List.map_cons]
    | some p0 =>
      have hex : (!productExists ps it.product_id) = false := by
        simp [productExists, hp]
      have hfiltereq :
          rest.filter (fun x =>
            !productExists (applyInc ps it.product_id it.quantity) x.product_id)
            = rest.filter (fun x => !productExists ps x.product_id) :=
        List.filter_congr (fun x _ => by rw [productExists_applyInc])
      simp only [cancelLoop, hp, List.filter_cons, hex, Bool.false_eq_true, if_false]
      rw [ih, hfiltereq]

/-- C5: `cancel_reserve` processes items independently (not all-or-nothing):
    every item whose product exists has its quantity added to that product's
    stock even when other items of the same call name missing products; the
    response carries the restored (product_id, quantity) list, one error per
    missing-product item, and `success = true` exactly when every item's
    product exists — so a partially successful result with both a non-empty
    restored list and a non-empty error list is representable. -/
theorem cancel_reserve_processes_items_independently (ps : List Product)
    (items : List ReserveItem) :
    (cancel_reserve ps items).products
      = ps.map (fun p => { p with stock := p.stock + (sumQtyFor items p.id : Int) }) ∧
    (cancel_reserve ps items).response.reserved_items
      = (items.filter (fun it => productExists ps it.product_id)).map
          (fun it => ReserveItem.mk it.product_id it.quantity) ∧
    (cancel_reserve ps items).response.errors
      = (items.filter (fun it => !productExists ps it.product_id)).map
          (fun it => notFoundMsg it.product_id) ∧
    ((cancel_reserve ps items).response.success = true ↔
      ∀ it ∈ items, productExists ps it.product_id = true) := by
  refine ⟨cancelLoop_products items ps, cancelLoop_restored items ps,
    cancelLoop_errors items ps, ?_⟩
  have herr := cancelLoop_errors items ps
  have hiff : (cancelLoop ps items).2.2.1.isEmpty = true ↔
      ∀ it ∈ items, productExists ps it.product_id = true := by
    constructor
    · intro hsucc it hmem
      have hnil : (cancelLoop ps items).2.2.1 = [] := List.isEmpty_iff.mp hsucc
      rw [herr] at hnil
      have hfil := List.map_eq_nil_iff.mp hnil
      have := List.filter_eq_nil_iff.mp hfil it hmem
      simpa using this
    · intro hall
      have hnil : (cancelLoop ps items).2.2.1 = [] := by
        rw [herr]
        rw [List.filter_eq_nil_iff.mpr (fun it hmem => by simp [hall it hmem])]
        rfl
      exact List.isEmpty_iff.mpr hnil
  exact hiff

/-- Witness for C5 at the spec's example: one missing product id (99) and
    one valid one (1, stock 5, quantity 2) — stock restored to 7 for the
    valid one, one error for the missing one, `success = false`, and the
    restored list is non-empty alongside the non-empty error list. -/
theorem cancel_reserve_processes_items_independently_witness :
    (cancel_reserve [mkTestProduct 1 "A" 5] [⟨99, 1⟩, ⟨1, 2⟩]).products.map
        Product.stock = [7] ∧
    (cancel_reserve [mkTestProduct 1 "A" 5] [⟨99, 1⟩, ⟨1, 2⟩]).response.success
        = false ∧
    (cancel_reserve [mkTestProduct 1 "A" 5] [⟨99, 1⟩, ⟨1, 2⟩]).response.reserved_items
        = [⟨1, 2⟩] ∧
    (cancel_reserve [mkTestProduct 1 "A" 5] [⟨99, 1⟩, ⟨1, 2⟩]).response.errors
        = [notFoundMsg 99] := by
  have h := cancel_reserve_processes_items_independently
    [mkTestProduct 1 "A" 5] [⟨99, 1⟩, ⟨1, 2⟩]
  exact ⟨by rw [h.1]; rfl, by rfl, by rw [h.2.1]; rfl, by rw [h.2.2.1]; rfl⟩

/-! ### Lemmas about the attribute validator -/

theorem length_filterMap_isSome {α β : Type _} (f : α → Option β) (l : List α) :
    (l.filterMap f).length = (l.filter (fun a => (f a).isSome)).length := by
  induction l with
  | nil => rfl
  | cons a l ih =>
    cases h : f a <;> simp [List.filterMap_cons, List.filter_cons, h, ih]

theorem requiredErrors_length (defs : List AttributeDef)
    (attrs : List (String × Value)) :
    (requiredErrors defs attrs).length
      = (defs.filter (fun d => d.required && !hasKeyMatching attrs d.title)).length := by
  rw [requiredErrors, length_filterMap_isSome]
  apply congrArg List.length
  apply List.filter_congr
  intro d _
  by_cases hc : (d.required && !hasKeyMatching attrs d.title) = true <;> simp [hc]

theorem typeErrors_length (defs : List AttributeDef)
    (attrs : List (String × Value)) :
    (typeErrors defs attrs).length
      = (attrs.filter (fun kv => keyFails defs kv)).length := by
  rw [typeErrors, length_filterMap_isSome]
  apply congrArg List.length
  apply List.filter_congr
  intro kv _
  cases h : definitions_map defs (pyLower kv.1) with
  | none => simp [keyFails, h]
  | some d =>
    by_cases ht : type_check d.type kv.2 <;>
      simp [keyFails, validate_attribute_type, h, ht]

/-- C4: for every list of attribute definitions (one category's Schema
    Store rows) and attribute map, the validator produces the complete
    violation list in one pass: its length is the number of required
    definitions with no case-insensitive key match plus the number of
    present keys that case-insensitively match a definition and fail its
    declared type's runtime check; each such required definition and each
    such failing key contributes its violation to the list; and a key with
    no matching definition contributes no violation at all — so the
    validator never reports only the first violation found. -/
theorem validator_reports_all_violations (defs : List AttributeDef)
    (attrs : List (String × Value)) :
    (validate_product_attributes defs attrs).length
      = (defs.filter (fun d => d.required && !hasKeyMatching attrs d.title)).length
        + (attrs.filter (fun kv => keyFails defs kv)).length ∧
    (∀ d ∈ defs, d.required = true → hasKeyMatching attrs d.title = false →
      (⟨d.title, requiredMissingMsg d.title⟩ : Violation)
        ∈ validate_product_attributes defs attrs) ∧
    (∀ kv ∈ attrs, ∀ d, definitions_map defs (pyLower kv.1) = Option.some d →
      type_check d.type kv.2 = false →
      (⟨kv.1, typeMismatchMsg kv.1 d.type⟩ : Violation)
        ∈ validate_product_attributes defs attrs) ∧
    (∀ kv ∈ attrs, definitions_map defs (pyLower kv.1) = Option.none →
      ∀ v ∈ validate_product_attributes defs attrs, v.field ≠ kv.1) := by
  refine ⟨?_, ?_, ?_, ?_⟩
  · rw [validate_product_attributes, List.length_append,
      requiredErrors_length, typeErrors_length]
  · intro d hd hreq hmiss
    apply List.mem_append_left
    apply List.mem_filterMap.mpr
    exact ⟨d, hd, by simp [hreq, hmiss]⟩
  · intro kv hkv d hmap hfail
    apply List.mem_append_right
    apply List.mem_filterMap.mpr
    refine ⟨kv, hkv, ?_⟩
    rw [hmap]
    simp [validate_attribute_type, hfail]
  · intro kv hkv hnone v hv heq
    rcases List.mem_append.mp hv with hreq | htyp
    · rcases List.mem_filterMap.mp hreq with ⟨d, _, hfd⟩
      by_cases hc : (d.required && !hasKeyMatching attrs d.title) = true
      · rw [if_pos hc] at hfd
        have hvfield : v.field = d.title := by
          cases hfd
          rfl
        have htitle : d.title = kv.1 := by
          rw [← hvfield, heq]
        have hmatch : hasKeyMatching attrs d.title = true := by
          apply List.any_eq_true.mpr
          exact ⟨kv, hkv, by simp [htitle]⟩
        have hparts : d.required = true ∧ hasKeyMatching attrs d.title = false := by
          simpa using hc
        simp [hmatch] at hparts
      · rw [if_neg hc] at hfd
        cases hfd
    · rcases List.mem_filterMap.mp htyp with ⟨kv', hkv', hf⟩
      cases hmap : definitions_map defs (pyLower kv'.1) with
      | none =>
        rw [hmap] at hf
        cases hf
      | some d =>
        rw [hmap] at hf
        by_cases ht : type_check d.type kv'.2 = true
        · simp [validate_attribute_type, ht] at hf
        · simp only [validate_attribute_type] at hf
          rw [if_neg ht] at hf
          have hvfield : v.field = kv'.1 := by
            cases hf
            rfl
          have hkey : pyLower kv'.1 = pyLower kv.1 := by
            rw [← hvfield, heq]
          rw [hkey, hnone] at hmap
          cases hmap

/-- Witness for C4 at the spec's example: a category with required "Color"
    (string) and optional "Weight" (number).  Submitting the empty map
    yields exactly the one violation for "Color"; submitting
    Color="Red", Weight="heavy" yields exactly the one type violation for
    "Weight". -/
theorem validator_reports_all_violations_witness :
    (⟨"Color", requiredMissingMsg "Color"⟩ : Violation)
      ∈ validate_product_attributes
          [⟨1, 1, "Color", AttributeType.string, true⟩,
           ⟨2, 1, "Weight", AttributeType.number, false⟩] [] ∧
    validate_product_attributes
        [⟨1, 1, "Color", AttributeType.string, true⟩,
         ⟨2, 1, "Weight", AttributeType.number, false⟩] []
      = [⟨"Color", requiredMissingMsg "Color"⟩] ∧
    validate_product_attributes
        [⟨1, 1, "Color", AttributeType.string, true⟩,
         ⟨2, 1, "Weight", AttributeType.number, false⟩]
        [("Color", Value.strV "Red"), ("Weight", Value.strV "heavy")]
      = [⟨"Weight", typeMismatchMsg "Weight" AttributeType.number⟩] := by
  refine ⟨?_, by rfl, by rfl⟩
  exact (validator_reports_all_violations
      [⟨1, 1, "Color", AttributeType.string, true⟩,
       ⟨2, 1, "Weight", AttributeType.number, false⟩] []).2.1
    ⟨1, 1, "Color", AttributeType.string, true⟩ (by simp) rfl rfl

/-! ### Product update and the attribute validator (claim C7) -/

/-- C7 is violated by the code for a present-but-empty attributes map: the
    update path guards validation with Python truthiness (`if data.attributes:`),
    so an update whose partial data includes `attributes = {}` skips the
    validator entirely and persists the empty map — even though the
    validator, had it run against the effective category (with required
    "Color"), would have produced a violation. -/
theorem update_empty_attributes_map_skips_validation :
    (product_update
        ⟨[⟨1, "Одежда"⟩], [⟨1, 1, "Color", AttributeType.string, true⟩],
         [⟨10, "Shirt", 100, 1, Option.none, [], 5, 0, ProductStatus.active,
           [("Color", Value.strV "Red")]⟩]⟩
        10 { attributes := Option.some [] }).2
      = UpdateResult.ok
          ⟨10, "Shirt", 100, 1, Option.none, [], 5, 0, ProductStatus.active, []⟩ [] ∧
    (product_update
        ⟨[⟨1, "Одежда"⟩], [⟨1, 1, "Color", AttributeType.string, true⟩],
         [⟨10, "Shirt", 100, 1, Option.none, [], 5, 0, ProductStatus.active,
           [("Color", Value.strV "Red")]⟩]⟩
        10 { attributes := Option.some [] }).1.products
      = [⟨10, "Shirt", 100, 1, Option.none, [], 5, 0, ProductStatus.active, []⟩] ∧
    validate_product_attributes
        (attributesOfCategory
          ⟨[⟨1, "Одежда"⟩], [⟨1, 1, "Color", AttributeType.string, true⟩],
           [⟨10, "Shirt", 100, 1, Option.none, [], 5, 0, ProductStatus.active,
             [("Color", Value.strV "Red")]⟩]⟩ 1) []
      = [⟨"Color", requiredMissingMsg "Color"⟩] := by
  exact ⟨rfl, rfl, rfl⟩

/-- C7 (amended): for every product update whose partial data includes a
    NON-EMPTY attributes map, the validator is re-run against the effective
    category (the new category when `category_id` is being changed and
    differs, otherwise the current one), and any violation aborts the update
    with a validation failure carrying the full violation list while the
    store is left unchanged — nothing is persisted. -/
theorem update_validates_present_nonempty_attributes (s : Store) (pid : Nat)
    (data : ProductUpdateData) (p : Product) (m : List (String × Value))
    (hp : getProductById s.products pid = Option.some p)
    (hm : data.attributes = Option.some m) (hne : m ≠ [])
    (hcat : ∀ c, data.category_id = Option.some c → c ≠ p.category_id →
      (getCategoryById s.categories c).isSome = true)
    (hviol : validate_product_attributes
        (attributesOfCategory s (data.category_id.getD p.category_id)) m ≠ []) :
    product_update s pid data
      = (s, UpdateResult.validation_failure
          (validate_product_attributes
            (attributesOfCategory s (data.category_id.getD p.category_id)) m)) := by
  have hmissing :
      (match data.category_id with
        | Option.some c => c != p.category_id && (getCategoryById s.categories c).isNone
        | Option.none => false) = false := by
    cases hc : data.category_id with
    | none => rfl
    | some c =>
      by_cases hcp : c = p.category_id
      · simp [hcp]
      · have hsome := hcat c hc hcp
        simp [Option.isNone_eq_false_iff, Option.isSome_iff_ne_none] at hsome ⊢
        exact fun _ => hsome
  have hmne : m.isEmpty = false := by
    simpa [List.isEmpty_eq_false] using hne
  have hvempty : (validate_product_attributes
      (attributesOfCategory s (data.category_id.getD p.category_id)) m).isEmpty
        = false :=
    List.isEmpty_eq_false.mpr hviol
  simp only [product_update, hp]
  rw [if_neg (by simp [hmissing])]
  rw [hm]
  simp only [truthyAttrs, Option.getD_some, hmne, Bool.not_false, if_true]
  rw [if_neg (by simp [hvempty])]

/-- Witness for C7 (amended): updating the product with a non-empty
    attributes map that omits the required "Color" aborts with the
    validation failure and leaves the store unchanged. -/
theorem update_validates_present_nonempty_attributes_witness :
    product_update
        ⟨[⟨1, "Одежда"⟩], [⟨1, 1, "Color", AttributeType.string, true⟩],
         [⟨10, "Shirt", 100, 1, Option.none, [], 5, 0, ProductStatus.active,
           [("Color", Value.strV "Red")]⟩]⟩
        10 { attributes := Option.some [("Weight", Value.intV 5)] }
      = (⟨[⟨1, "Одежда"⟩], [⟨1, 1, "Color", AttributeType.string, true⟩],
          [⟨10, "Shirt", 100, 1, Option.none, [], 5, 0, ProductStatus.active,
            [("Color", Value.strV "Red")]⟩]⟩,
         UpdateResult.validation_failure [⟨"Color", requiredMissingMsg "Color"⟩]) := by
  have h := update_validates_present_nonempty_attributes
    ⟨[⟨1, "Одежда"⟩], [⟨1, 1, "Color", AttributeType.string, true⟩],
     [⟨10, "Shirt", 100, 1, Option.none, [], 5, 0, ProductStatus.active,
       [("Color", Value.strV "Red")]⟩]⟩
    10 { attributes := Option.some [("Weight", Value.intV 5)] }
    ⟨10, "Shirt", 100, 1, Option.none, [], 5, 0, ProductStatus.active,
      [("Color", Value.strV "Red")]⟩
    [("Weight", Value.intV 5)]
    rfl rfl (by simp)
    (by intro c hc; exact absurd hc (by simp))
    (by decide)
  rw [h]
  rfl

/-! ### Attribute and category uniqueness (claims C8, C9) -/

/-- C8 is violated by the code: the service's duplicate pre-check looks the
    title up across ALL categories, so creating "Color" in category 2 is
    rejected with the duplicate error even though no definition of
    category 2 carries that title — contradicting the model's own
    `(category_id, title)` unique constraint and docstring, which scope
    uniqueness to one category. -/
theorem attribute_create_rejects_cross_category_duplicate :
    attribute_create
        ⟨[⟨1, "Одежда"⟩, ⟨2, "Обувь"⟩],
         [⟨1, 1, "Color", AttributeType.string, false⟩], []⟩
        5 ⟨2, "Color", AttributeType.string, false⟩
      = Except.error ⟨400, duplicateAttrMsg "Color"⟩ ∧
    ∀ a ∈ (⟨[⟨1, "Одежда"⟩, ⟨2, "Обувь"⟩],
        [⟨1, 1, "Color", AttributeType.string, false⟩], []⟩ : Store).attribute_definitions,
      a.category_id ≠ 2 := by
  refine ⟨rfl, ?_⟩
  intro a ha
  simp only [List.mem_singleton] at ha
  subst ha
  decide

/-- C9 is violated as stated: creating a second category whose title
    normalizes to an existing one IS rejected, but the service raises a
    plain `HTTPException` with status 400, not the Conflict condition that
    the boundary maps to 409 — the `ConflictException` handler is never
    reached. -/
theorem category_create_duplicate_returns_400_not_409 :
    categorySchemaNormalize "  phone " = Except.ok "Phone" ∧
    category_create ⟨[⟨1, "Phone"⟩], [], []⟩ 2 "PHONE"
      = Except.error ⟨400, duplicateCategoryMsg "Phone"⟩ ∧
    (400 : Nat) ≠ 409 := by
  exact ⟨rfl, rfl, by decide⟩

/-- C9 (amended): creating a second category whose title normalizes (trim
    plus first-letter capitalization) to the same value as an existing
    category's title is rejected with an `HTTPException` of status 400
    carrying the duplicate-category detail. -/
theorem category_create_duplicate_normalized_title_rejected (s : Store)
    (newId : Nat) (raw t : String) (c : Category)
    (hnorm : categorySchemaNormalize raw = Except.ok t)
    (hex : category_get_by_title s.categories t = Option.some c) :
    category_create s newId raw = Except.error ⟨400, duplicateCategoryMsg t⟩ := by
  simp only [category_create, hnorm, hex]

/-- Witness for C9 (amended): with "Phone" stored, creating "phone"
    (normalizing to "Phone") is rejected with status 400. -/
theorem category_create_duplicate_normalized_title_rejected_witness :
    category_create ⟨[⟨1, "Phone"⟩], [], []⟩ 7 "phone"
      = Except.error ⟨400, duplicateCategoryMsg "Phone"⟩ :=
  category_create_duplicate_normalized_title_rejected
    ⟨[⟨1, "Phone"⟩], [], []⟩ 7 "phone" "Phone" ⟨1, "Phone"⟩ rfl rfl

/-! ### Title normalization (claim C10) -/

theorem pyCapitalize_ne_empty (s : String) (h : s ≠ "") : pyCapitalize s ≠ "" := by
  cases s with
  | mk l =>
    cases l with
    | nil => exact absurd rfl h
    | cons c cs =>
      simp only [pyCapitalize]
      intro hcontra
      have hdata : (c.toUpper :: cs.map Char.toLower) = ([] : List Char) :=
        congrArg String.data hcontra
      cases hdata

/-- C10: `normalize_title` (src/utils.py) rejects exactly the titles that
    are empty or whitespace-only (it raises, i.e. returns an error, iff the
    stripped title is empty), never returns an empty string on success, and
    the category schema's inline validator computes the same normalization —
    so every create/update schema for categories, products and attribute
    definitions rejects blank titles before any service logic runs and no
    entity is stored with a blank title. -/
theorem normalize_title_rejects_blank_titles (s : String) :
    ((∃ e, normalize_title s = Except.error e) ↔ pyStrip s = "") ∧
    (∀ t, normalize_title s = Except.ok t → t ≠ "") ∧
    (categorySchemaNormalize s).toOption = (normalize_title s).toOption := by
  by_cases h : pyStrip s = ""
  · refine ⟨⟨fun _ => h,
      fun _ => ⟨"Название не может быть пустым", by simp [normalize_title, h]⟩⟩, ?_, ?_⟩
    · intro t ht
      simp [normalize_title, h] at ht
    · simp [normalize_title, categorySchemaNormalize, h, Except.toOption]
  · refine ⟨⟨fun he => ?_, fun hh => absurd hh h⟩, ?_, ?_⟩
    · obtain ⟨e, he⟩ := he
      simp [normalize_title, h] at he
    · intro t ht
      simp only [normalize_title] at ht
      rw [if_neg h] at ht
      cases ht
      exact pyCapitalize_ne_empty _ h
    · simp [normalize_title, categorySchemaNormalize, h, Except.toOption]

/-- Witness for C10: "  phone " normalizes to the non-empty "Phone", while
    the whitespace-only "   " strips to empty and is rejected. -/
theorem normalize_title_rejects_blank_titles_witness :
    normalize_title "  phone " = Except.ok "Phone" ∧ ("Phone" : String) ≠ "" ∧
    pyStrip "   " = "" ∧ (∃ e, normalize_title "   " = Except.error e) := by
  refine ⟨rfl, ?_, rfl, ?_⟩
  · exact (normalize_title_rejects_blank_titles "  phone ").2.1 "Phone" rfl
  · exact (normalize_title_rejects_blank_titles "   ").1.mpr rfl

end ProductSvc
